import Mathlib

/-!
Shallow embedding of `src/cputest/unaligned_stores.cpp` (JosJuice/hwtests).

Memory is modelled as a byte-addressed function `Nat → Nat`: an address is the
byte offset inside the 32-byte scratch window, and the stored value is the
byte at that offset.  The machine is big-endian (PowerPC), so a 32-bit store
places the most significant byte at the lowest address.
-/

set_option maxRecDepth 4096

namespace UnalignedStores

/-- Byte-addressed memory: offset within the scratch window to byte value. -/
abbrev Mem := Nat → Nat

/-- Store one byte at offset `pos`. -/
def setByte (buf : Mem) (pos val : Nat) : Mem :=
  fun a => if a = pos then val else buf a

/-- Store a list of bytes at consecutive offsets starting at `pos`. -/
def writeBytesAt (buf : Mem) (pos : Nat) : List Nat → Mem
  | [] => buf
  | b :: bs => writeBytesAt (setByte buf pos b) (pos + 1) bs

/-- The bytes (most significant first) that a big-endian store of the low
`size` bytes of `value` places in memory; mirrors the `size` switch of the
source function `Write` (sizes other than 4, 2, 1 fall through and store
nothing). -/
def beBytes (value size : Nat) : List Nat :=
  if size = 4 then
    [value / 2 ^ 24 % 256, value / 2 ^ 16 % 256, value / 2 ^ 8 % 256, value % 256]
  else if size = 2 then
    [value / 2 ^ 8 % 256, value % 256]
  else if size = 1 then
    [value % 256]
  else
    []

/-- Embedding of the source function `Write(ptr, value, size, swap)` for
`swap = false` (the reference-model paths only ever pass `swap = false`;
the `swap = true` variants are the hardware instructions under test, which
the model never uses). -/
def Write (buf : Mem) (pos value size : Nat) : Mem :=
  writeBytesAt buf pos (beBytes value size)

/-- Modelled from the spec: `Common::RotateRight` (Common/BitUtils.h, not under
src/) right-rotates a 32-bit value; the rotation amount is taken modulo the
32-bit width, as required for the quirk model's amounts of up to 56 bits. -/
def RotateRight (value amount : Nat) : Nat :=
  value % 4294967296 / 2 ^ (amount % 32) +
    value % 4294967296 % 2 ^ (amount % 32) * 2 ^ (32 - amount % 32)

/-- Modelled from the spec: `Common::RotateLeft` (Common/BitUtils.h, not under
src/), the inverse 32-bit rotation used by the spec's rotation round-trip
property; the amount is likewise taken modulo 32. -/
def RotateLeft (value amount : Nat) : Nat :=
  value % 4294967296 % 2 ^ (32 - amount % 32) * 2 ^ (amount % 32) +
    value % 4294967296 / 2 ^ (32 - amount % 32)

/-- The branch condition of `WriteWithSimulatedQuirks`:
`if (misalignment_32 || size < 4)`. -/
def takesQuirkPath (alignment size : Nat) : Bool :=
  decide (alignment % 4 ≠ 0 ∨ size < 4)

/-- The tiling loop of `WriteWithSimulatedQuirks`:
`for (i = 0; i < count; i += 8)` performs `(count + 7) / 8` iterations, each
issuing two aligned 4-byte writes of the rotated value at `base + i` and
`base + i + 4`; modelled structurally on the iteration count, advancing
`base` by 8 per iteration. -/
def quirkTiles (value base : Nat) : Nat → Mem → Mem
  | 0, buf => buf
  | n + 1, buf =>
      quirkTiles value (base + 8) n (Write (Write buf base value 4) (base + 4) value 4)

/-- Embedding of the source function
`WriteWithSimulatedQuirks(alignment, ptr, value, size)`.  `pos` is the byte
offset of `ptr` inside the window; the loop start `ptr - misalignment_64`
becomes `pos - alignment % 8` and the loop bound `count = misalignment_64 +
size` becomes the iteration count `(alignment % 8 + size + 7) / 8`. -/
def WriteWithSimulatedQuirks (alignment : Nat) (buf : Mem) (pos value size : Nat) : Mem :=
  if alignment % 4 ≠ 0 ∨ size < 4 then
    quirkTiles (RotateRight value ((alignment % 4 + size) * 8)) (pos - alignment % 8)
      ((alignment % 8 + size + 7) / 8) buf
  else
    Write buf pos value size

/-- The `stswi_table` of `WriteStswi`: entry `k` is `WriteStswiImpl<k>`,
represented here by its `OutSize` template parameter (the immediate count
field encoded into the `stswi` instruction). -/
def stswi_table : List Nat :=
  [0, 1, 2, 3, 4, 5, 6, 7,
   8, 9, 10, 11, 12, 13, 14, 15,
   16, 17, 18, 19, 20, 21, 22, 23,
   24, 25, 26, 27, 28, 29, 30, 31]

/-- Modelled from the spec: `WriteStswiImpl<OutSize>` (inline assembly) issues
one `stswi` instruction whose immediate count field is `OutSize`; per the
spec, a count field of 0 encodes a 32-byte store, otherwise exactly
`OutSize` bytes are stored. -/
def stswiImplBytesStored (outSize : Nat) : Nat :=
  if outSize = 0 then 32 else outSize

/-- Embedding of the dispatch in `WriteStswi`:
`stswi_table[out_size & 31]` selects the implementation; the result is the
`OutSize` parameter of the selected `WriteStswiImpl` instantiation. -/
def WriteStswi (out_size : Nat) : Nat :=
  stswi_table.getD (out_size % 32) 0

/-- Embedding of `WriteStswSimulated(out_ptr, in_ptr, size)`:
`std::copy(in_ptr, in_ptr + size, out_ptr)`. -/
def WriteStswSimulated (buf : Mem) (pos : Nat) (src : List Nat) (size : Nat) : Mem :=
  writeBytesAt buf pos (src.take size)

/-- The four instruction modes of the test. -/
inductive Mode
  | Regular
  | Swap
  | Stswi
  | Stswx
deriving DecidableEq

/-- The fixed 32-byte source sequence `STSW_VALUES`. -/
def STSW_VALUES : List Nat :=
  [0x10, 0x11, 0x12, 0x13, 0x14, 0x15, 0x16, 0x17,
   0x18, 0x19, 0x1a, 0x1b, 0x1c, 0x1d, 0x1e, 0x1f,
   0x20, 0x21, 0x22, 0x23, 0x24, 0x25, 0x26, 0x27,
   0x28, 0x29, 0x2a, 0x2b, 0x2c, 0x2d, 0x2e, 0x2f]

/-- The base test pattern `word = 0x12345678`. -/
def word : Nat := 0x12345678

/-- `swapped_word = (mode == Swap) ? (size == 2 ? 0x12347856 : 0x78563412) : word`. -/
def swappedWord (mode : Mode) (size : Nat) : Nat :=
  if mode = Mode.Swap then (if size = 2 then 0x12347856 else 0x78563412) else word

/-- `stsw = mode == Stswi || mode == Stswx`. -/
def stswMode (mode : Mode) : Bool :=
  decide (mode = Mode.Stswi ∨ mode = Mode.Stswx)

/-- The sentinel fill `0x01020304` written over the 32-byte window by 32-bit
stores before each trial; byte `a` of the window holds the `(a % 4)`-th
big-endian byte of the fill word. -/
def initialBuffer : Mem :=
  fun a => if a < 32 then [0x01, 0x02, 0x03, 0x04].getD (a % 4) 0 else 0

/-- The reference-model buffer computed by one trial of `UnalignedStoresTest`
for offset `i`: the string modes use `WriteStswSimulated`, cache-backed
Regular/Swap use a plain `Write` of the (possibly pre-swapped) word, and
non-cache-backed Regular/Swap use `WriteWithSimulatedQuirks`. -/
def referenceBuffer (mode : Mode) (size : Nat) (cached : Bool) (i : Nat) : Mem :=
  if stswMode mode then
    WriteStswSimulated initialBuffer i STSW_VALUES size
  else if cached then
    Write initialBuffer i (swappedWord mode size) size
  else
    WriteWithSimulatedQuirks i initialBuffer i (swappedWord mode size) size

/-- `pi_error_expected = !cached_memory && !stsw` (the per-trial expected
fault flag; it does not depend on the trial's size or offset). -/
def pi_error_expected (cached : Bool) (mode : Mode) : Bool :=
  !cached && !(stswMode mode)

/-- Outcome record of one trial of the sweep loop. -/
structure TrialReport where
  offset : Nat
  dataOk : Bool
  faultOk : Bool
deriving DecidableEq

/-- The 32-byte comparison `std::equal(ptr, ptr + 32, reference_buffer)`. -/
def bufEq32 (x y : Mem) : Bool :=
  (List.range 32).all fun a => x a == y a

/-- Embedding of the sweep loop of `UnalignedStoresTest`:
`for (size_t i = 0; i <= 32 - size; ++i)` runs one trial per offset.
`actual` is the hardware side of trial `i` (final window contents and
observed fault flag), which the model cannot compute and takes as an oracle.
Modelled from the spec: `DO_TEST` (Common/hwtests.h, not under src/) records
a pass/fail outcome and continues, so each trial yields one report and the
loop never exits early. -/
def UnalignedStoresTest (actual : Nat → Mem × Bool) (size : Nat) (cached : Bool)
    (mode : Mode) : List TrialReport :=
  (List.range (32 - size + 1)).map fun i =>
    { offset := i
      dataOk := bufEq32 (actual i).1 (referenceBuffer mode size cached i)
      faultOk := (actual i).2 == pi_error_expected cached mode }

/-- A trivial hardware oracle (used only to instantiate the sweep loop at a
concrete input): every trial leaves the window untouched and reports no
fault. -/
def constActual : Nat → Mem × Bool :=
  fun _ => (initialBuffer, false)

/-- Rendering of the spec's sentence for the quirk path: the value is
right-rotated by `(misalignment-within-4 + size) * 8` bits, and the rotated
value is written as consecutive aligned 4-byte words starting at
`address - (address mod 8)`, covering `(address mod 8) + size` bytes rounded
up to a multiple of 8 (hence `((alignment % 8 + size + 7) / 8 * 8) / 4`
words). -/
def writeWords (value : Nat) : Nat → Nat → Mem → Mem
  | _, 0, buf => buf
  | base, n + 1, buf => writeWords value (base + 4) n (Write buf base value 4)

/-- The spec's description of the quirk path as a single rotate-then-tile
write, to be compared against `WriteWithSimulatedQuirks`. -/
def specQuirkTiling (alignment : Nat) (buf : Mem) (pos value size : Nat) : Mem :=
  writeWords (RotateRight value ((alignment % 4 + size) * 8)) (pos - alignment % 8)
    ((alignment % 8 + size + 7) / 8 * 8 / 4) buf

/-! ### Helper lemmas -/

/-- Pointwise characterisation of `writeBytesAt`: offsets inside
`[pos, pos + l.length)` read the stored byte, all others are untouched. -/
theorem writeBytesAt_apply (l : List Nat) :
    ∀ (buf : Mem) (pos a : Nat),
      writeBytesAt buf pos l a =
        if pos ≤ a ∧ a < pos + l.length then l.getD (a - pos) 0 else buf a := by
  induction l with
  | nil =>
    intro buf pos a
    simp only [writeBytesAt, List.length_nil, Nat.add_zero]
    rw [if_neg (by omega)]
  | cons b bs ih =>
    intro buf pos a
    simp only [writeBytesAt, List.length_cons]
    rw [ih]
    by_cases h1 : pos + 1 ≤ a ∧ a < pos + 1 + bs.length
    · rw [if_pos h1, if_pos (by omega)]
      have h2 : a - pos = a - (pos + 1) + 1 := by omega
      rw [h2, List.getD_cons_succ]
    · rw [if_neg h1]
      by_cases h2 : a = pos
      · subst h2
        rw [if_pos (by omega)]
        simp [setByte, Nat.sub_self]
      · rw [if_neg (by omega)]
        simp [setByte, h2]

/-- A big-endian store covers at most 4 bytes. -/
theorem beBytes_length_le (value size : Nat) : (beBytes value size).length ≤ 4 := by
  unfold beBytes
  split_ifs <;> simp

/-- A `Write` at `p` leaves every offset at or beyond `p + 4` untouched. -/
theorem Write_out (buf : Mem) (p v s a : Nat) (h : p + 4 ≤ a) :
    Write buf p v s a = buf a := by
  have hl := beBytes_length_le v s
  unfold Write
  rw [writeBytesAt_apply, if_neg (by omega)]

/-- The tiling loop starting at `base` for `n` iterations leaves every offset
at or beyond `base + 8 * n` untouched. -/
theorem quirkTiles_out (value n : Nat) :
    ∀ (base : Nat) (buf : Mem) (a : Nat), base + 8 * n ≤ a →
      quirkTiles value base n buf a = buf a := by
  induction n with
  | zero =>
    intro base buf a h
    rfl
  | succ n ih =>
    intro base buf a h
    simp only [quirkTiles]
    rw [ih (base + 8) _ a (by omega), Write_out _ _ _ _ _ (by omega),
      Write_out _ _ _ _ _ (by omega)]

/-- Rotating a 32-bit value with big-endian bytes `b0 b1 b2 b3` right by 8
bits moves the low byte to the top. -/
theorem RotateRight_bytes8 (b0 b1 b2 b3 : Nat) (h0 : b0 < 256) (h1 : b1 < 256)
    (h2 : b2 < 256) (h3 : b3 < 256) :
    RotateRight (b0 * 16777216 + b1 * 65536 + b2 * 256 + b3) 8 =
      b3 * 16777216 + b0 * 65536 + b1 * 256 + b2 := by
  unfold RotateRight
  norm_num
  omega

/-- Right rotation by 16 bits swaps the two halfwords. -/
theorem RotateRight_bytes16 (b0 b1 b2 b3 : Nat) (h0 : b0 < 256) (h1 : b1 < 256)
    (h2 : b2 < 256) (h3 : b3 < 256) :
    RotateRight (b0 * 16777216 + b1 * 65536 + b2 * 256 + b3) 16 =
      b2 * 16777216 + b3 * 65536 + b0 * 256 + b1 := by
  unfold RotateRight
  norm_num
  omega

/-- Right rotation by 24 bits moves the high byte to the bottom. -/
theorem RotateRight_bytes24 (b0 b1 b2 b3 : Nat) (h0 : b0 < 256) (h1 : b1 < 256)
    (h2 : b2 < 256) (h3 : b3 < 256) :
    RotateRight (b0 * 16777216 + b1 * 65536 + b2 * 256 + b3) 24 =
      b1 * 16777216 + b2 * 65536 + b3 * 256 + b0 := by
  unfold RotateRight
  norm_num
  omega

/-- Right rotation by 32 bits is the identity on 32-bit values. -/
theorem RotateRight_bytes32 (b0 b1 b2 b3 : Nat) (h0 : b0 < 256) (h1 : b1 < 256)
    (h2 : b2 < 256) (h3 : b3 < 256) :
    RotateRight (b0 * 16777216 + b1 * 65536 + b2 * 256 + b3) 32 =
      b0 * 16777216 + b1 * 65536 + b2 * 256 + b3 := by
  unfold RotateRight
  norm_num
  omega

/-- Rotation amounts reduce modulo 32: 40 bits act as 8. -/
theorem RotateRight_bytes40 (b0 b1 b2 b3 : Nat) (h0 : b0 < 256) (h1 : b1 < 256)
    (h2 : b2 < 256) (h3 : b3 < 256) :
    RotateRight (b0 * 16777216 + b1 * 65536 + b2 * 256 + b3) 40 =
      b3 * 16777216 + b0 * 65536 + b1 * 256 + b2 :=
  RotateRight_bytes8 b0 b1 b2 b3 h0 h1 h2 h3

/-- Rotation amounts reduce modulo 32: 48 bits act as 16. -/
theorem RotateRight_bytes48 (b0 b1 b2 b3 : Nat) (h0 : b0 < 256) (h1 : b1 < 256)
    (h2 : b2 < 256) (h3 : b3 < 256) :
    RotateRight (b0 * 16777216 + b1 * 65536 + b2 * 256 + b3) 48 =
      b2 * 16777216 + b3 * 65536 + b0 * 256 + b1 :=
  RotateRight_bytes16 b0 b1 b2 b3 h0 h1 h2 h3

/-- Rotation amounts reduce modulo 32: 56 bits act as 24. -/
theorem RotateRight_bytes56 (b0 b1 b2 b3 : Nat) (h0 : b0 < 256) (h1 : b1 < 256)
    (h2 : b2 < 256) (h3 : b3 < 256) :
    RotateRight (b0 * 16777216 + b1 * 65536 + b2 * 256 + b3) 56 =
      b1 * 16777216 + b2 * 65536 + b3 * 256 + b0 :=
  RotateRight_bytes24 b0 b1 b2 b3 h0 h1 h2 h3

/-- The big-endian bytes of a 4-byte store of a value with bytes
`b0 b1 b2 b3`. -/
theorem beBytes_bytes4 (b0 b1 b2 b3 : Nat) (h0 : b0 < 256) (h1 : b1 < 256)
    (h2 : b2 < 256) (h3 : b3 < 256) :
    beBytes (b0 * 16777216 + b1 * 65536 + b2 * 256 + b3) 4 = [b0, b1, b2, b3] := by
  simp only [beBytes, if_true, if_pos rfl]
  norm_num
  refine ⟨?_, ?_, ?_, ?_⟩ <;> omega

/-- The big-endian bytes of a 2-byte store: the low two bytes. -/
theorem beBytes_bytes2 (b0 b1 b2 b3 : Nat) (h0 : b0 < 256) (h1 : b1 < 256)
    (h2 : b2 < 256) (h3 : b3 < 256) :
    beBytes (b0 * 16777216 + b1 * 65536 + b2 * 256 + b3) 2 = [b2, b3] := by
  unfold beBytes
  norm_num
  constructor <;> omega

/-- The big-endian bytes of a 1-byte store: the low byte. -/
theorem beBytes_bytes1 (b0 b1 b2 b3 : Nat) (h0 : b0 < 256) (h1 : b1 < 256)
    (h2 : b2 < 256) (h3 : b3 < 256) :
    beBytes (b0 * 16777216 + b1 * 65536 + b2 * 256 + b3) 1 = [b3] := by
  unfold beBytes
  norm_num
  omega

/-! ### Claims -/

/-- C3: for every trial, the expected fault outcome is true exactly when
`cached` is false and the mode is Regular or Swap; string-mode and
cache-backed trials always expect no fault.  The source expression
`pi_error_expected = !cached_memory && !stsw` mentions neither the size nor
the offset, so the expectation is independent of both. -/
theorem claim3_fault_expectation :
    ∀ (cached : Bool) (mode : Mode),
      pi_error_expected cached mode = true ↔
        cached = false ∧ (mode = Mode.Regular ∨ mode = Mode.Swap) := by
  intro cached mode
  cases cached <;> cases mode <;> decide

/-- C8: the `stswi` dispatcher is a table lookup over the closed domain
0..31 with exact count semantics: requested count 0 selects the entry whose
immediate field is 0 (which stores 32 bytes), requested count 32 reduces
modulo 32 to that same entry, and every other count at most 32 stores
exactly that many bytes. -/
theorem claim8_stswi_dispatch :
    WriteStswi 0 = 0 ∧ WriteStswi 32 = 0 ∧ WriteStswi 0 = WriteStswi 32 ∧
    stswiImplBytesStored (WriteStswi 0) = 32 ∧
    stswiImplBytesStored (WriteStswi 32) = 32 ∧
    (∀ s, s ≤ 32 → stswiImplBytesStored (WriteStswi s) =
      if s = 0 ∨ s = 32 then 32 else s) := by
  refine ⟨rfl, rfl, rfl, rfl, rfl, ?_⟩
  decide

/-- Witness for C8 at the concrete count 5. -/
theorem claim8_witness :
    stswiImplBytesStored (WriteStswi 5) = if (5 : Nat) = 0 ∨ (5 : Nat) = 32 then 32 else 5 :=
  claim8_stswi_dispatch.2.2.2.2.2 5 (by decide)

/-- C4 counterexample: for the trial size=2, mode=Swap, offset=1,
cached=false, the reference model does not use the swapped word
0x78563412: the source computes `size == 2 ? 0x12347856 : 0x78563412`, and
tiling the claimed word would put a different byte at offset 1. -/
theorem claim4_counterexample :
    swappedWord Mode.Swap 2 ≠ 0x78563412 ∧
    referenceBuffer Mode.Swap 2 false 1 1 ≠
      WriteWithSimulatedQuirks 1 initialBuffer 1 0x78563412 2 1 := by
  constructor <;> decide

/-- C4 as amended: for the trial size=2, mode=Swap, offset=1, cached=false
with base pattern 0x12345678, the reference model uses the swapped word
0x12347856 (whose low half is the byte-reversed halfword 0x7856), rotates it
right by (1 + 2) * 8 = 24 bits to 0x34785612, tiles that value over the
aligned 8-byte span at offset 0, leaves the rest of the window at the
sentinel fill, and the fault flag is expected true. -/
theorem claim4_swap_size2_trial :
    swappedWord Mode.Swap 2 = 0x12347856 ∧
    RotateRight 0x12347856 ((1 % 4 + 2) * 8) = 0x34785612 ∧
    (∀ a, a < 8 → referenceBuffer Mode.Swap 2 false 1 a =
      [0x34, 0x78, 0x56, 0x12].getD (a % 4) 0) ∧
    (∀ a, a < 32 → 8 ≤ a → referenceBuffer Mode.Swap 2 false 1 a = initialBuffer a) ∧
    pi_error_expected false Mode.Swap = true := by
  refine ⟨rfl, by decide, by decide, by decide, rfl⟩

/-- Witness for C4 at the concrete offset 1 inside the tiled span. -/
theorem claim4_witness :
    referenceBuffer Mode.Swap 2 false 1 1 = [0x34, 0x78, 0x56, 0x12].getD (1 % 4) 0 :=
  claim4_swap_size2_trial.2.2.1 1 (by decide)

/-- C9: for any size in {1,2,4} and any offset, rotating the test pattern
right by `(offset mod 4 + size) * 8` bits and then left by the same amount
reproduces the pattern. -/
theorem claim9_rotation_round_trip (size offset : Nat)
    (hs : size = 1 ∨ size = 2 ∨ size = 4) :
    RotateLeft (RotateRight word ((offset % 4 + size) * 8)) ((offset % 4 + size) * 8) =
      word := by
  have h4 : offset % 4 < 4 := Nat.mod_lt _ (by norm_num)
  revert h4
  generalize offset % 4 = m
  intro h4
  interval_cases m <;> rcases hs with rfl | rfl | rfl <;> decide

/-- Witness for C9 at size 2, offset 7. -/
theorem claim9_witness :
    RotateLeft (RotateRight word ((7 % 4 + 2) * 8)) ((7 % 4 + 2) * 8) = word :=
  claim9_rotation_round_trip 2 7 (Or.inr (Or.inl rfl))

/-- C5 counterexample: at size 0 the string-mode reference model copies
nothing (`std::copy(in_ptr, in_ptr + 0, out_ptr)`), so byte 0 of the window
keeps the sentinel fill 0x01 instead of the first source byte 0x10 that the
claim's "size 0 means 32 bytes" reading predicts. -/
theorem claim5_counterexample :
    referenceBuffer Mode.Stswx 0 false 0 0 ≠ STSW_VALUES.getD 0 0 := by
  decide

/-- C5 as amended: for every size 0..32 the string-mode reference model
writes exactly the first `size` bytes of the fixed source sequence verbatim
at the destination offset — size 0 copies nothing rather than 32 bytes —
and every other byte of the window keeps its previous value, independent of
`cached` and of the offset's alignment. -/
theorem claim5_string_copy_exact (mode : Mode) (size i a : Nat) (cached : Bool)
    (hm : stswMode mode = true) (hsz : size ≤ 32) :
    referenceBuffer mode size cached i a =
      if i ≤ a ∧ a < i + size then STSW_VALUES.getD (a - i) 0 else initialBuffer a := by
  unfold referenceBuffer
  rw [if_pos hm]
  unfold WriteStswSimulated
  rw [writeBytesAt_apply]
  have hlen : (STSW_VALUES.take size).length = size := by
    rw [List.length_take]
    simp [STSW_VALUES]
    omega
  rw [hlen]
  by_cases h : i ≤ a ∧ a < i + size
  · rw [if_pos h, if_pos h]
    have hai : a - i < size := by omega
    simp [List.getD_eq_getElem?_getD, List.getElem?_take, hai]
  · rw [if_neg h, if_neg h]

/-- Witness for C5 at mode=Stswi, size=3, offset=2, reading back byte 3. -/
theorem claim5_witness :
    referenceBuffer Mode.Stswi 3 true 2 3 =
      if 2 ≤ 3 ∧ 3 < 2 + 3 then STSW_VALUES.getD (3 - 2) 0 else initialBuffer 3 :=
  claim5_string_copy_exact Mode.Stswi 3 2 3 true (by decide) (by decide)

/-- C7: for every (mode, size, cached) triple the sweep engine produces one
trial report per integer offset from 0 to 32 - size inclusive, whatever the
hardware oracle returns: mismatching data or fault flags at one offset
cannot suppress the remaining offsets. -/
theorem claim7_all_offsets_exercised (actual : Nat → Mem × Bool) (size : Nat)
    (cached : Bool) (mode : Mode) (hsz : size ≤ 32) :
    (UnalignedStoresTest actual size cached mode).map TrialReport.offset =
      List.range (32 - size + 1) ∧
    (UnalignedStoresTest actual size cached mode).length = 32 - size + 1 := by
  constructor
  · unfold UnalignedStoresTest
    rw [List.map_map]
    have hcomp : (TrialReport.offset ∘ fun i =>
        (⟨i, bufEq32 (actual i).1 (referenceBuffer mode size cached i),
          (actual i).2 == pi_error_expected cached mode⟩ : TrialReport)) =
        fun i => i := rfl
    rw [hcomp, List.map_id']
  · simp [UnalignedStoresTest]

/-- Witness for C7 with a trivial oracle at size 4. -/
theorem claim7_witness :
    (UnalignedStoresTest constActual 4 false Mode.Regular).map TrialReport.offset =
      List.range (32 - 4 + 1) ∧
    (UnalignedStoresTest constActual 4 false Mode.Regular).length = 32 - 4 + 1 :=
  claim7_all_offsets_exercised constActual 4 false Mode.Regular (by decide)

/-- C6: for store sizes 1, 2, 4, any store with size < 4 takes the quirk
path even when the offset is 4-byte-aligned; the direct single-write fast
path is taken exactly when the offset is 4-byte-aligned and the size is 4,
and on that path `WriteWithSimulatedQuirks` degenerates to a single
`Write`. -/
theorem claim6_quirk_path_condition (alignment size pos value : Nat) (buf : Mem)
    (hs : size = 1 ∨ size = 2 ∨ size = 4) :
    (size < 4 → takesQuirkPath alignment size = true) ∧
    (takesQuirkPath alignment size = false ↔ alignment % 4 = 0 ∧ size = 4) ∧
    (takesQuirkPath alignment size = false →
      WriteWithSimulatedQuirks alignment buf pos value size = Write buf pos value size) := by
  refine ⟨?_, ?_, ?_⟩
  · intro h
    exact decide_eq_true (Or.inr h)
  · constructor
    · intro h
      have hn := of_decide_eq_false h
      push_neg at hn
      rcases hs with rfl | rfl | rfl <;> exact ⟨hn.1, by omega⟩
    · rintro ⟨h1, h2⟩
      subst h2
      apply decide_eq_false
      rintro (h | h)
      · exact h h1
      · omega
  · intro h
    have hn := of_decide_eq_false h
    unfold WriteWithSimulatedQuirks
    rw [if_neg hn]

/-- Witness for C6 at the aligned full-width input alignment=4, size=4. -/
theorem claim6_witness :
    ((4 : Nat) < 4 → takesQuirkPath 4 4 = true) ∧
    (takesQuirkPath 4 4 = false ↔ (4 : Nat) % 4 = 0 ∧ (4 : Nat) = 4) ∧
    (takesQuirkPath 4 4 = false →
      WriteWithSimulatedQuirks 4 initialBuffer 4 word 4 = Write initialBuffer 4 word 4) :=
  claim6_quirk_path_condition 4 4 4 word initialBuffer (Or.inr (Or.inr rfl))

/-- C10: for every harness store (size in {1,2,4}, offset with
`i + size ≤ 32`), the reference-model call
`WriteWithSimulatedQuirks(i, buf + i, value, size)` leaves every offset at
or beyond 32 untouched: the tiled aligned writes never reach outside the
32-byte reference window. -/
theorem claim10_writes_stay_in_window (size i value a : Nat) (buf : Mem)
    (hs : size = 1 ∨ size = 2 ∨ size = 4) (hi : i + size ≤ 32) (ha : 32 ≤ a) :
    WriteWithSimulatedQuirks i buf i value size a = buf a := by
  unfold WriteWithSimulatedQuirks
  by_cases hq : i % 4 ≠ 0 ∨ size < 4
  · rw [if_pos hq]
    apply quirkTiles_out
    rcases hs with rfl | rfl | rfl <;> omega
  · rw [if_neg hq]
    push_neg at hq
    apply Write_out
    rcases hs with rfl | rfl | rfl <;> omega

/-- Witness for C10 at size=2, offset=1, reading offset 35. -/
theorem claim10_witness :
    WriteWithSimulatedQuirks 1 initialBuffer 1 word 2 35 = initialBuffer 35 :=
  claim10_writes_stay_in_window 2 1 word 35 initialBuffer (Or.inr (Or.inl rfl))
    (by decide) (by decide)

/-- C1: on the quirk path (non-4-byte-aligned offset or size < 4) for store
sizes 1, 2, 4, `WriteWithSimulatedQuirks` right-rotates the 32-bit value by
`(misalignment-within-4 + size) * 8` bits and writes the rotated value as
consecutive aligned 4-byte words starting at `address - (address mod 8)`,
covering `(address mod 8) + size` bytes rounded up to a multiple of 8 —
exactly the spec's rotate-then-tile description `specQuirkTiling`. -/
theorem claim1_quirk_rotate_and_tile (alignment pos value size : Nat) (buf : Mem)
    (hs : size = 1 ∨ size = 2 ∨ size = 4)
    (hq : alignment % 4 ≠ 0 ∨ size < 4) :
    WriteWithSimulatedQuirks alignment buf pos value size =
      specQuirkTiling alignment buf pos value size := by
  unfold WriteWithSimulatedQuirks specQuirkTiling
  rw [if_pos hq]
  have h48 : alignment % 4 = alignment % 8 % 4 := by omega
  rw [h48]
  have h8 : alignment % 8 < 8 := Nat.mod_lt _ (by norm_num)
  revert h8
  generalize alignment % 8 = m
  intro h8
  rcases hs with rfl | rfl | rfl <;> interval_cases m <;>
    simp [quirkTiles, writeWords, Nat.add_assoc]

/-- Witness for C1 at alignment 1, size 2. -/
theorem claim1_witness :
    WriteWithSimulatedQuirks 1 initialBuffer 1 word 2 =
      specQuirkTiling 1 initialBuffer 1 word 2 :=
  claim1_quirk_rotate_and_tile 1 1 word 2 initialBuffer (Or.inr (Or.inl rfl))
    (Or.inl (by decide))

set_option maxHeartbeats 4000000 in
/-- C2: for every store size in {1,2,4}, every harness offset
(`i + size ≤ 32`), and every 32-bit value, after the quirk-path write
`WriteWithSimulatedQuirks(i, buf + i, value, size)` the `size` bytes at
offsets `[i, i + size)` equal the bytes an ordinary `size`-byte big-endian
store of the value would place there: the rotation makes the aligned 4-byte
tiles reassemble correctly at the intended unaligned target. -/
theorem claim2_reassembles_target_bytes (size i value k : Nat) (buf : Mem)
    (hs : size = 1 ∨ size = 2 ∨ size = 4) (hi : i + size ≤ 32)
    (hq : i % 4 ≠ 0 ∨ size < 4) (hv : value < 4294967296) (hk : k < size) :
    WriteWithSimulatedQuirks i buf i value size (i + k) =
      (beBytes value size).getD k 0 := by
  have key : ∀ b0 b1 b2 b3, b0 < 256 → b1 < 256 → b2 < 256 → b3 < 256 →
      WriteWithSimulatedQuirks i buf i
          (b0 * 16777216 + b1 * 65536 + b2 * 256 + b3) size (i + k) =
        (beBytes (b0 * 16777216 + b1 * 65536 + b2 * 256 + b3) size).getD k 0 := by
    intro b0 b1 b2 b3 h0 h1 h2 h3
    unfold WriteWithSimulatedQuirks
    rw [if_pos hq]
    rcases hs with rfl | rfl | rfl
    · have hub : i ≤ 31 := by omega
      interval_cases i <;> interval_cases k <;>
        (simp [RotateRight_bytes8, RotateRight_bytes16, RotateRight_bytes24,
          RotateRight_bytes32, beBytes_bytes1, beBytes_bytes4,
          h0, h1, h2, h3, quirkTiles, Write, writeBytesAt, setByte] <;> omega)
    · have hub : i ≤ 30 := by omega
      interval_cases i <;> interval_cases k <;>
        (simp [RotateRight_bytes16, RotateRight_bytes24, RotateRight_bytes32,
          RotateRight_bytes40, beBytes_bytes2, beBytes_bytes4,
          h0, h1, h2, h3, quirkTiles, Write, writeBytesAt, setByte] <;> omega)
    · have hub : i ≤ 28 := by omega
      interval_cases i <;> interval_cases k <;>
        (simp [RotateRight_bytes40, RotateRight_bytes48, RotateRight_bytes56,
          beBytes_bytes4,
          h0, h1, h2, h3, quirkTiles, Write, writeBytesAt, setByte] <;> omega)
  have hrec : value / 16777216 % 256 * 16777216 + value / 65536 % 256 * 65536 +
      value / 256 % 256 * 256 + value % 256 = value := by omega
  have h := key (value / 16777216 % 256) (value / 65536 % 256) (value / 256 % 256)
    (value % 256) (by omega) (by omega) (by omega) (by omega)
  rw [hrec] at h
  exact h

/-- Witness for C2 at size 2, offset 1, value 0x12345678, byte 0. -/
theorem claim2_witness :
    WriteWithSimulatedQuirks 1 initialBuffer 1 0x12345678 2 (1 + 0) =
      (beBytes 0x12345678 2).getD 0 0 :=
  claim2_reassembles_target_bytes 2 1 0x12345678 0 initialBuffer
    (Or.inr (Or.inl rfl)) (by decide) (Or.inl (by decide)) (by decide) (by decide)

end UnalignedStores
